import Mathlib

/- Formal model of fp/ctrainlib/models.py.

   The file models the prediction wrappers (Regressor, Classifier) and the two
   cross-validated ensembles (CVClassifier, NestedClusterCVClassifier).
   numpy arrays are lists over ℚ (matrices are lists of row lists); pandas
   DataFrames are a list of named columns plus an index.  The scikit-learn
   collaborators are opaque: the base estimator is a type parameter `M`
   together with the functions the ensemble calls on it (`clfFit` models
   `self.clf(**self.params)` followed by `.fit(X, y)`, `probaFn` models
   `model.predict_proba`), the StratifiedKFold splitter's output is passed to
   `CVClassifier.fit` as an explicit list of (train_index, test_index) pairs,
   and a StandardScaler is an opaque matrix transform. -/

/-- Result of `np.sum(list_of_arrays, axis=0)` followed by `np.divide`:
numpy collapses the empty list to the 0-d scalar `0.0`, otherwise it yields a
matrix.  This sum type records both possibilities. -/
inductive NpArr where
  | scalar (q : ℚ)
  | mat (m : List (List ℚ))
  deriving DecidableEq

/-- Whether an `NpArr` is a (2-d) matrix rather than a 0-d scalar. -/
def NpArr.isMat : NpArr → Bool
  | .scalar _ => false
  | .mat _ => true

/-- Element at row `i`, column `j` of a matrix (0 when out of range). -/
def matEntry (m : List (List ℚ)) (i j : ℕ) : ℚ :=
  (m.getD i []).getD j 0

/-- Element access on an `NpArr`: on a scalar it returns the scalar. -/
def NpArr.entry : NpArr → ℕ → ℕ → ℚ
  | .scalar q, _, _ => q
  | .mat m, i, j => matEntry m i j

/-- Elementwise matrix addition, as numpy broadcasts it for same-shape arrays. -/
def matAdd (a b : List (List ℚ)) : List (List ℚ) :=
  List.zipWith (fun ra rb => List.zipWith (· + ·) ra rb) a b

/-- Model of `np.sum(predictions, axis=0)` on a Python list of same-shape
matrices: the empty list gives the 0-d scalar `0.0`. -/
def npSum : List (List (List ℚ)) → NpArr
  | [] => .scalar 0
  | h :: t => .mat (t.foldl matAdd h)

/-- Model of `np.divide(a, d)` for a scalar divisor. -/
def npDivide : NpArr → ℚ → NpArr
  | .scalar q, d => .scalar (q / d)
  | .mat m, d => .mat (m.map (fun row => row.map (fun q => q / d)))

/-- Fancy indexing `arr[ix]` of numpy: pick the listed positions in order. -/
def npTake (l : List α) (ix : List ℕ) (d : α) : List α :=
  ix.map (fun i => l.getD i d)

/-- Model of `np.where(mask)[0]`: the positions holding `true`, ascending. -/
def maskIndices (mask : List Bool) : List ℕ :=
  (List.range mask.length).filter (fun i => mask.getD i false)

/-- Insertion into a sorted list of integers. -/
def insertSorted (a : ℤ) : List ℤ → List ℤ
  | [] => [a]
  | b :: t => if a ≤ b then a :: b :: t else b :: insertSorted a t

/-- Insertion sort on integers. -/
def sortZ : List ℤ → List ℤ
  | [] => []
  | a :: t => insertSorted a (sortZ t)

/-- Model of `np.unique`: the distinct values, sorted ascending. -/
def npUnique (l : List ℤ) : List ℤ :=
  sortZ l.dedup

/-- Maximum of two rationals, written so that it evaluates by kernel
reduction (the lattice `max` of Mathlib does not). -/
def qmax (a b : ℚ) : ℚ :=
  if a ≤ b then b else a

/-- Maximum of a list of rationals (`0` for the empty list, which numpy
would reject anyway). -/
def listMax : List ℚ → ℚ
  | [] => 0
  | a :: t => t.foldl qmax a

/-- Index of the first occurrence of `a` in a list. -/
def firstIdxOf (a : ℚ) : List ℚ → ℕ
  | [] => 0
  | b :: t => if b = a then 0 else firstIdxOf a t + 1

/-- Model of `np.argmax` on a 1-d array: the first index attaining the
maximum value. -/
def npArgmax (l : List ℚ) : ℕ :=
  firstIdxOf (listMax l) l

/-- A list of lists is an `r × c` matrix: `r` rows, each of length `c`. -/
def IsMat (r c : ℕ) (m : List (List ℚ)) : Prop :=
  m.length = r ∧ ∀ i, i < r → (m.getD i []).length = c


/-- Error raised by pandas when a referenced column is absent (the spec's
`ColumnNotFoundError`, a `KeyError` in pandas). -/
inductive DFError where
  | columnNotFound
  deriving DecidableEq

/-- A pandas DataFrame of rationals: named columns plus a row index.
Columns are stored in order, aligned with `colNames`. -/
structure DataFrame where
  colNames : List String
  cols : List (List ℚ)
  index : List ℕ
  deriving DecidableEq

/-- Column of a DataFrame by name (`df[nm]`); `[]` when absent. -/
def DataFrame.getCol (df : DataFrame) (nm : String) : List ℚ :=
  (((df.colNames.zip df.cols).find? (fun p => p.1 == nm)).map Prod.snd).getD []

/-- Model of `df.drop(columns=cs)`: removes the named columns, raising
`KeyError` (pandas default `errors="raise"`) when any of them is absent. -/
def dropColumns (df : DataFrame) (cs : List String) : Except DFError DataFrame :=
  if cs.all (fun s => df.colNames.contains s) then
    let kept := (df.colNames.zip df.cols).filter (fun p => !(cs.contains p.1))
    .ok { colNames := kept.map Prod.fst, cols := kept.map Prod.snd, index := df.index }
  else .error .columnNotFound

/-- Model of `x_data.loc[:, descs] = transform(np.array(x_data[descs]))`:
reads the descriptor sub-matrix (raising `KeyError` when a descriptor column
is absent), applies the opaque scaler transform, and writes the resulting
columns back in descriptor order.  Column names and index are untouched. -/
def scaleDescriptors (df : DataFrame) (descs : List String)
    (transform : List (List ℚ) → List (List ℚ)) : Except DFError DataFrame :=
  if descs.all (fun s => df.colNames.contains s) then
    let sub := (List.range df.index.length).map
      (fun i => descs.map (fun nm => (df.getCol nm).getD i 0))
    let t := transform sub
    .ok { df with cols := (df.colNames.zip df.cols).map (fun p =>
      if descs.contains p.1 then t.map (fun row => row.getD (descs.indexOf p.1) 0) else p.2) }
  else .error .columnNotFound

/-- Model of `np.array(x_data)`: the DataFrame's values as a row-major matrix,
one row per index entry, scanning the columns in order. -/
def DataFrame.toRows (df : DataFrame) : List (List ℚ) :=
  (List.range df.index.length).map (fun i => df.cols.map (fun colv => colv.getD i 0))

/-- Shared preprocessing of `Regressor.predict` and `Classifier.predict`
(spec §4.1), acting on the copy of the caller's table: drop the redundant
columns when the list is non-empty (Python truthiness of
`if self.redundant_cols:`), then apply the scaler to the descriptor columns
when a scaler is present. -/
def preprocess (redundant_cols descriptors : List String)
    (scaler : Option (List (List ℚ) → List (List ℚ))) (df : DataFrame) :
    Except DFError DataFrame :=
  match (if redundant_cols ≠ [] then dropColumns df redundant_cols else .ok df) with
  | .error e => .error e
  | .ok x1 =>
    match scaler with
    | some t => scaleDescriptors x1 descriptors t
    | none => .ok x1

/-- Wrapper for a fitted regressor (`Regressor` in models.py).  `predictFn`
models the wrapped model's `.predict`; `scaler` an optional fitted
StandardScaler's `.transform`. -/
structure Regressor (M : Type) where
  model : M
  name : String
  predictFn : M → List (List ℚ) → List ℚ
  scaler : Option (List (List ℚ) → List (List ℚ))
  redundant_cols : List String
  descriptors : List String

/-- Model of `Regressor.predict`: copy the table, capture its index, drop the
redundant columns, scale the descriptors, run the wrapped model, and return a
one-column table indexed like the input. -/
def Regressor.predict {M : Type} (r : Regressor M) (x_data : DataFrame) :
    Except DFError DataFrame :=
  let index := x_data.index
  match preprocess r.redundant_cols r.descriptors r.scaler x_data with
  | .error e => .error e
  | .ok x =>
    .ok { colNames := [r.name ++ "_prediction"],
          cols := [r.predictFn r.model x.toRows],
          index := index }

/-- Wrapper for a fitted classifier (`Classifier` in models.py).  `probaFn`
models the wrapped model's `.predict_proba`, `classesFn` its `.classes_`
attribute. -/
structure Classifier (M : Type) where
  model : M
  name : String
  probaFn : M → List (List ℚ) → List (List ℚ)
  classesFn : M → List ℚ
  scaler : Option (List (List ℚ) → List (List ℚ))
  redundant_cols : List String
  descriptors : List String

/-- Model of `Classifier.predict`: preprocess a copy of the table, call the
wrapped model's `predict_proba`, take per row the first index of the maximum
probability (`values.argmax()`) to pick the predicted class and its
confidence, and concatenate the prediction, confidence and per-class
probability columns over the input's index. -/
def Classifier.predict {M : Type} (c : Classifier M) (x_data : DataFrame) :
    Except DFError DataFrame :=
  let index := x_data.index
  match preprocess c.redundant_cols c.descriptors c.scaler x_data with
  | .error e => .error e
  | .ok x =>
    let y := c.probaFn c.model x.toRows
    let predictions := y.map (fun values => (c.classesFn c.model).getD (npArgmax values) 0)
    let probabilities := y.map (fun values => values.getD (npArgmax values) 0)
    let prediction_name := c.name ++ "_prediction"
    let probability_name := c.name ++ "_probability"
    let probability_columns := (List.range (c.classesFn c.model).length).map
      (fun i => c.name ++ "_probability_" ++ toString i)
    .ok { colNames := [prediction_name, probability_name] ++ probability_columns,
          cols := [predictions, probabilities] ++
            (List.range (c.classesFn c.model).length).map
              (fun j => y.map (fun row => row.getD j 0)),
          index := index }

/-- Effect of a `Regressor.predict` call on the caller: the pair of the
caller's table after the call and the returned result.  The source copies
`x_data` on entry (line 64) and applies `drop(..., inplace=True)` and the
`.loc` assignment to the copy only, so the caller's frame passes through
unchanged. -/
def Regressor.predictEff {M : Type} (r : Regressor M) (df : DataFrame) :
    DataFrame × Except DFError DataFrame :=
  (df, r.predict df)

/-- Effect of a `Classifier.predict` call on the caller, as in
`Regressor.predictEff` (the copy is taken at line 130). -/
def Classifier.predictEff {M : Type} (c : Classifier M) (df : DataFrame) :
    DataFrame × Except DFError DataFrame :=
  (df, c.predict df)

/-- Stratified cross-validation ensemble (`CVClassifier` in models.py).
The base estimator is opaque: `clfFit X y` models `self.clf(**self.params)`
followed by `.fit(X, y)` (a fresh instance per call), and `probaFn` models a
trained instance's `predict_proba`.  `classes_` is `None` at construction and
set externally after `fit`; the empty list stands for `None`. -/
structure CVClassifier (M : Type) where
  clfFit : List (List ℚ) → List ℚ → M
  probaFn : M → List (List ℚ) → List (List ℚ)
  models : List M
  n_folds : ℕ
  shuffle : Bool
  classes_ : List ℚ

/-- Model of `CVClassifier.__init__`: empty model list, configured fold
count, unset `classes_`. -/
def CVClassifier.init {M : Type} (clfFit : List (List ℚ) → List ℚ → M)
    (probaFn : M → List (List ℚ) → List (List ℚ)) (n_folds : ℕ) (shuffle : Bool) :
    CVClassifier M :=
  { clfFit := clfFit, probaFn := probaFn, models := [], n_folds := n_folds,
    shuffle := shuffle, classes_ := [] }

/-- Model of `CVClassifier._mean_proba`: collect every owned model's
`predict_proba`, sum with `np.sum(..., axis=0)` and divide by `n_folds`. -/
def CVClassifier.mean_proba {M : Type} (c : CVClassifier M)
    (x_data : List (List ℚ)) : NpArr :=
  npDivide (npSum (c.models.map (fun m => c.probaFn m x_data))) (c.n_folds : ℚ)

/-- Model of `CVClassifier.fit`.  The `StratifiedKFold` splitter is the
external scikit-learn collaborator; its output — the `(train_index,
test_index)` pairs yielded by `skf.split(X=x_data, y=y_data)` — is passed in
as `kf`.  For each pair a fresh base model is fitted on
`x_data[train_index]`, `y_data[train_index]` and appended to `models`. -/
def CVClassifier.fit {M : Type} (c : CVClassifier M)
    (kf : List (List ℕ × List ℕ)) (x_data : List (List ℚ)) (y_data : List ℚ) :
    CVClassifier M :=
  { c with models := c.models ++
      kf.map (fun p => c.clfFit (npTake x_data p.1 []) (npTake y_data p.1 0)) }

/-- Model of `CVClassifier.predict_proba`. -/
def CVClassifier.predict_proba {M : Type} (c : CVClassifier M)
    (x_data : List (List ℚ)) : NpArr :=
  c.mean_proba x_data

/-- Model of `CVClassifier.predict`: `np.argmax(probas, axis=1)` then
`self.classes_[x]` per row.  On the 0-d scalar produced by an unfitted
ensemble `np.argmax(..., axis=1)` raises, modelled by `none`. -/
def CVClassifier.predict {M : Type} (c : CVClassifier M)
    (x_data : List (List ℚ)) : Option (List ℚ) :=
  match c.mean_proba x_data with
  | .scalar _ => none
  | .mat probas => some (probas.map (fun row => c.classes_.getD (npArgmax row) 0))

/-- Nested cluster cross-validation ensemble (`NestedClusterCVClassifier` in
models.py).  Cluster identifiers are integers (`outer_clusters` is an int
array in the source). -/
structure NestedClusterCVClassifier (M : Type) where
  clfFit : List (List ℚ) → List ℚ → M
  probaFn : M → List (List ℚ) → List (List ℚ)
  models : List M
  outer_clusters : List ℤ
  n_folds : ℕ
  shuffle : Bool
  classes_ : List ℚ

/-- Model of `NestedClusterCVClassifier.__init__`: stores the cluster vector
and sets `n_folds = len(np.unique(outer_clusters))`. -/
def NestedClusterCVClassifier.init {M : Type}
    (clfFit : List (List ℚ) → List ℚ → M)
    (probaFn : M → List (List ℚ) → List (List ℚ))
    (outer_clusters : List ℤ) (shuffle : Bool) : NestedClusterCVClassifier M :=
  { clfFit := clfFit, probaFn := probaFn, models := [],
    outer_clusters := outer_clusters, n_folds := (npUnique outer_clusters).length,
    shuffle := shuffle, classes_ := [] }

/-- Model of `NestedClusterCVClassifier._mean_proba` (identical body to the
stratified variant's). -/
def NestedClusterCVClassifier.mean_proba {M : Type}
    (c : NestedClusterCVClassifier M) (x_data : List (List ℚ)) : NpArr :=
  npDivide (npSum (c.models.map (fun m => c.probaFn m x_data))) (c.n_folds : ℚ)

/-- The batch of models one `NestedClusterCVClassifier.fit` call appends:
`for fold in range(self.n_folds)` — note the comparison of cluster
identifiers against the fold counter, not against the identifiers present —
build the inner subset by `np.logical_not(self.outer_clusters == fold)`,
then one model per value of `np.unique(inner_clusters)`, trained on the
inner samples whose cluster differs from it. -/
def nestedFitBatch {M : Type} (c : NestedClusterCVClassifier M)
    (x_data : List (List ℚ)) (y_data : List ℚ) : List M :=
  (List.range c.n_folds).flatMap (fun fold =>
    let inner_cluster_mask := c.outer_clusters.map (fun cl => !(cl == (fold : ℤ)))
    let inner_cluster_ix := maskIndices inner_cluster_mask
    let inner_x := npTake x_data inner_cluster_ix []
    let inner_y := npTake y_data inner_cluster_ix 0
    let inner_clusters := npTake c.outer_clusters inner_cluster_ix 0
    (npUnique inner_clusters).map (fun inner_fold =>
      let train_ix := maskIndices (inner_clusters.map (fun cl => !(cl == inner_fold)))
      c.clfFit (npTake inner_x train_ix []) (npTake inner_y train_ix 0)))

/-- Model of `NestedClusterCVClassifier.fit`: append the batch to the owned
model list. -/
def NestedClusterCVClassifier.fit {M : Type} (c : NestedClusterCVClassifier M)
    (x_data : List (List ℚ)) (y_data : List ℚ) : NestedClusterCVClassifier M :=
  { c with models := c.models ++ nestedFitBatch c x_data y_data }

/-- Model of `NestedClusterCVClassifier.predict_proba`. -/
def NestedClusterCVClassifier.predict_proba {M : Type}
    (c : NestedClusterCVClassifier M) (x_data : List (List ℚ)) : NpArr :=
  c.mean_proba x_data

/-- Model of `NestedClusterCVClassifier.predict` (same body as the
stratified variant's). -/
def NestedClusterCVClassifier.predict {M : Type}
    (c : NestedClusterCVClassifier M) (x_data : List (List ℚ)) : Option (List ℚ) :=
  match c.mean_proba x_data with
  | .scalar _ => none
  | .mat probas => some (probas.map (fun row => c.classes_.getD (npArgmax row) 0))

/-- Characterisation of the `(train_index, test_index)` pairs scikit-learn's
`StratifiedKFold(n_splits=k).split` yields on `n` samples, as far as the
claims need it: `k` pairs, each train index list being the ascending
complement of its test index list in `0..n-1`. -/
def ValidKFold (n k : ℕ) (splits : List (List ℕ × List ℕ)) : Prop :=
  splits.length = k ∧
    ∀ p ∈ splits, p.1 = (List.range n).filter (fun i => !(p.2.contains i))


theorem le_qmax_left (a b : ℚ) : a ≤ qmax a b := by
  unfold qmax
  split
  · assumption
  · exact le_refl a

theorem le_qmax_right (a b : ℚ) : b ≤ qmax a b := by
  unfold qmax
  split
  · exact le_refl b
  · exact le_of_not_le (by assumption)

theorem qmax_choice (a b : ℚ) : qmax a b = a ∨ qmax a b = b := by
  unfold qmax
  split
  · exact Or.inr rfl
  · exact Or.inl rfl

theorem foldl_max_le (t : List ℚ) : ∀ a : ℚ, a ≤ t.foldl qmax a ∧ ∀ x ∈ t, x ≤ t.foldl qmax a := by
  induction t with
  | nil => intro a; exact ⟨le_refl a, by intro x hx; cases hx⟩
  | cons b t ih =>
    intro a
    have h := ih (qmax a b)
    constructor
    · exact le_trans (le_qmax_left a b) h.1
    · intro x hx
      rcases List.mem_cons.mp hx with rfl | hx
      · exact le_trans (le_qmax_right a x) h.1
      · exact h.2 x hx

theorem foldl_max_mem (t : List ℚ) : ∀ a : ℚ, t.foldl qmax a = a ∨ t.foldl qmax a ∈ t := by
  induction t with
  | nil => intro a; exact Or.inl rfl
  | cons b t ih =>
    intro a
    rcases ih (qmax a b) with h | h
    · rcases qmax_choice a b with hm | hm
      · exact Or.inl (by rw [List.foldl_cons, h, hm])
      · exact Or.inr (by rw [List.foldl_cons, h, hm]; exact List.mem_cons_self b t)
    · exact Or.inr (List.mem_cons_of_mem b h)

theorem listMax_mem (l : List ℚ) (h : l ≠ []) : listMax l ∈ l := by
  cases l with
  | nil => exact absurd rfl h
  | cons a t =>
    rcases foldl_max_mem t a with h1 | h1
    · rw [listMax, h1]; exact List.mem_cons_self a t
    · exact List.mem_cons_of_mem a h1

theorem le_listMax (l : List ℚ) (x : ℚ) (hx : x ∈ l) : x ≤ listMax l := by
  cases l with
  | nil => cases hx
  | cons a t =>
    rcases List.mem_cons.mp hx with rfl | hx
    · exact (foldl_max_le t x).1
    · exact (foldl_max_le t a).2 x hx

theorem firstIdxOf_getD (a : ℚ) (l : List ℚ) (h : a ∈ l) :
    l.getD (firstIdxOf a l) 0 = a := by
  induction l with
  | nil => cases h
  | cons b t ih =>
    by_cases hb : b = a
    · simp [firstIdxOf, hb]
    · rcases List.mem_cons.mp h with h1 | h1
      · exact absurd h1.symm hb
      · simp only [firstIdxOf, hb, if_false, List.getD_cons_succ]
        exact ih h1

theorem firstIdxOf_lt_length (a : ℚ) (l : List ℚ) (h : a ∈ l) :
    firstIdxOf a l < l.length := by
  induction l with
  | nil => cases h
  | cons b t ih =>
    by_cases hb : b = a
    · simp [firstIdxOf, hb]
    · rcases List.mem_cons.mp h with h1 | h1
      · exact absurd h1.symm hb
      · simp only [firstIdxOf, hb, if_false, List.length_cons]
        exact Nat.succ_lt_succ (ih h1)

theorem firstIdxOf_le (a : ℚ) (l : List ℚ) (j : ℕ) (hj : j < l.length)
    (hval : l.getD j 0 = a) : firstIdxOf a l ≤ j := by
  induction l generalizing j with
  | nil => cases hj
  | cons b t ih =>
    by_cases hb : b = a
    · simp [firstIdxOf, hb]
    · cases j with
      | zero => exact absurd hval hb
      | succ j =>
        simp only [firstIdxOf, hb, if_false]
        exact Nat.succ_le_succ (ih j (Nat.lt_of_succ_lt_succ hj) hval)

theorem npArgmax_getD (l : List ℚ) : l.getD (npArgmax l) 0 = listMax l := by
  by_cases h : l = []
  · subst h; rfl
  · exact firstIdxOf_getD _ _ (listMax_mem l h)

theorem npArgmax_lt_length (l : List ℚ) (h : l ≠ []) : npArgmax l < l.length :=
  firstIdxOf_lt_length _ _ (listMax_mem l h)

theorem npArgmax_min (l : List ℚ) (j : ℕ) (hj : j < l.length)
    (hval : l.getD j 0 = listMax l) : npArgmax l ≤ j :=
  firstIdxOf_le _ _ j hj hval

theorem getD_zipWith_of_lt {α β γ : Type} (f : α → β → γ) (da : α) (db : β) (dc : γ) :
    ∀ (a : List α) (b : List β) (i : ℕ), i < a.length → i < b.length →
      (List.zipWith f a b).getD i dc = f (a.getD i da) (b.getD i db) := by
  intro a
  induction a with
  | nil => intro b i hi _; cases hi
  | cons x t ih =>
    intro b i hi hib
    cases b with
    | nil => cases hib
    | cons y s =>
      cases i with
      | zero => rfl
      | succ i =>
        simp only [List.zipWith_cons_cons, List.getD_cons_succ]
        exact ih s i (Nat.lt_of_succ_lt_succ hi) (Nat.lt_of_succ_lt_succ hib)

theorem getD_map_of_lt {α β : Type} (f : α → β) (da : α) (db : β) :
    ∀ (l : List α) (i : ℕ), i < l.length → (l.map f).getD i db = f (l.getD i da) := by
  intro l
  induction l with
  | nil => intro i hi; cases hi
  | cons x t ih =>
    intro i hi
    cases i with
    | zero => rfl
    | succ i =>
      simp only [List.map_cons, List.getD_cons_succ]
      exact ih i (Nat.lt_of_succ_lt_succ hi)

theorem getD_mem_of_lt {α : Type} (l : List α) (i : ℕ) (d : α) (hi : i < l.length) :
    l.getD i d ∈ l := by
  induction l generalizing i with
  | nil => cases hi
  | cons x t ih =>
    cases i with
    | zero => exact List.mem_cons_self x t
    | succ i =>
      simp only [List.getD_cons_succ]
      exact List.mem_cons_of_mem x (ih i (Nat.lt_of_succ_lt_succ hi))

theorem matAdd_isMat {r c : ℕ} {a b : List (List ℚ)}
    (ha : IsMat r c a) (hb : IsMat r c b) : IsMat r c (matAdd a b) := by
  constructor
  · simp [matAdd, List.length_zipWith, ha.1, hb.1]
  · intro i hi
    have hia : i < a.length := by rw [ha.1]; exact hi
    have hib : i < b.length := by rw [hb.1]; exact hi
    rw [matAdd, getD_zipWith_of_lt _ [] [] [] a b i hia hib]
    rw [List.length_zipWith, ha.2 i hi, hb.2 i hi, Nat.min_self]

theorem matEntry_matAdd {r c : ℕ} {a b : List (List ℚ)} (i j : ℕ)
    (ha : IsMat r c a) (hb : IsMat r c b) (hi : i < r) (hj : j < c) :
    matEntry (matAdd a b) i j = matEntry a i j + matEntry b i j := by
  have hia : i < a.length := by rw [ha.1]; exact hi
  have hib : i < b.length := by rw [hb.1]; exact hi
  unfold matEntry matAdd
  rw [getD_zipWith_of_lt _ [] [] [] a b i hia hib]
  exact getD_zipWith_of_lt _ 0 0 0 _ _ j (by rw [ha.2 i hi]; exact hj)
    (by rw [hb.2 i hi]; exact hj)

theorem foldl_matAdd_isMat {r c : ℕ} :
    ∀ (t : List (List (List ℚ))) (acc : List (List ℚ)),
      IsMat r c acc → (∀ m ∈ t, IsMat r c m) → IsMat r c (t.foldl matAdd acc) := by
  intro t
  induction t with
  | nil => intro acc hacc _; exact hacc
  | cons h t ih =>
    intro acc hacc hall
    rw [List.foldl_cons]
    exact ih (matAdd acc h) (matAdd_isMat hacc (hall h (List.mem_cons_self h t)))
      (fun m hm => hall m (List.mem_cons_of_mem h hm))

theorem foldl_matAdd_entry {r c : ℕ} (i j : ℕ) (hi : i < r) (hj : j < c) :
    ∀ (t : List (List (List ℚ))) (acc : List (List ℚ)),
      IsMat r c acc → (∀ m ∈ t, IsMat r c m) →
      matEntry (t.foldl matAdd acc) i j =
        matEntry acc i j + (t.map (fun m => matEntry m i j)).sum := by
  intro t
  induction t with
  | nil => intro acc _ _; simp
  | cons h t ih =>
    intro acc hacc hall
    have hh : IsMat r c h := hall h (List.mem_cons_self h t)
    rw [List.foldl_cons,
      ih (matAdd acc h) (matAdd_isMat hacc hh) (fun m hm => hall m (List.mem_cons_of_mem h hm)),
      matEntry_matAdd i j hacc hh hi hj]
    simp [add_assoc]

theorem npSum_spec {r c : ℕ} (L : List (List (List ℚ))) (hne : L ≠ [])
    (hall : ∀ m ∈ L, IsMat r c m) :
    ∃ S, npSum L = .mat S ∧ IsMat r c S ∧
      ∀ i j, i < r → j < c → matEntry S i j = (L.map (fun m => matEntry m i j)).sum := by
  cases L with
  | nil => exact absurd rfl hne
  | cons h t =>
    have hh : IsMat r c h := hall h (List.mem_cons_self h t)
    have hrest : ∀ m ∈ t, IsMat r c m := fun m hm => hall m (List.mem_cons_of_mem h hm)
    refine ⟨t.foldl matAdd h, rfl, foldl_matAdd_isMat t h hh hrest, ?_⟩
    intro i j hi hj
    rw [foldl_matAdd_entry i j hi hj t h hh hrest]
    simp

theorem npDivide_mat_isMat {r c : ℕ} {m : List (List ℚ)} (d : ℚ) (hm : IsMat r c m) :
    IsMat r c (m.map (fun row => row.map (fun q => q / d))) := by
  constructor
  · simp [hm.1]
  · intro i hi
    have hil : i < m.length := by rw [hm.1]; exact hi
    rw [getD_map_of_lt _ [] [] m i hil, List.length_map]
    exact hm.2 i hi

theorem npDivide_mat_entry {r c : ℕ} {m : List (List ℚ)} (d : ℚ) (i j : ℕ)
    (hm : IsMat r c m) (hi : i < r) (hj : j < c) :
    matEntry (m.map (fun row => row.map (fun q => q / d))) i j = matEntry m i j / d := by
  have hil : i < m.length := by rw [hm.1]; exact hi
  unfold matEntry
  rw [getD_map_of_lt _ [] [] m i hil]
  exact getD_map_of_lt _ 0 0 _ j (by rw [hm.2 i hi]; exact hj)
theorem dropColumns_ok_index {df x : DataFrame} {cs : List String}
    (h : dropColumns df cs = .ok x) : x.index = df.index := by
  unfold dropColumns at h
  split at h
  · cases h; rfl
  · exact Except.noConfusion h

theorem scaleDescriptors_ok_index {df x : DataFrame} {descs : List String}
    {t : List (List ℚ) → List (List ℚ)}
    (h : scaleDescriptors df descs t = .ok x) : x.index = df.index := by
  unfold scaleDescriptors at h
  split at h
  · cases h; rfl
  · exact Except.noConfusion h

theorem preprocess_ok_index {rc descs : List String}
    {sc : Option (List (List ℚ) → List (List ℚ))} {df x : DataFrame}
    (h : preprocess rc descs sc df = .ok x) : x.index = df.index := by
  unfold preprocess at h
  cases hd : (if rc ≠ [] then dropColumns df rc else Except.ok df) with
  | error e => rw [hd] at h; exact Except.noConfusion h
  | ok x1 =>
    rw [hd] at h
    have hx1 : x1.index = df.index := by
      by_cases hrc : rc = []
      · rw [if_neg (by simp [hrc])] at hd
        cases hd; rfl
      · rw [if_pos hrc] at hd
        exact dropColumns_ok_index hd
    cases sc with
    | none => cases h; exact hx1
    | some t => rw [scaleDescriptors_ok_index h, hx1]

theorem preprocess_missing_redundant (rc descs : List String)
    (sc : Option (List (List ℚ) → List (List ℚ))) (df : DataFrame) (col : String)
    (hne : rc ≠ []) (hmem : col ∈ rc) (hmiss : df.colNames.contains col = false) :
    preprocess rc descs sc df = .error .columnNotFound := by
  have hall : (rc.all (fun s => df.colNames.contains s)) = false := by
    cases hac : rc.all (fun s => df.colNames.contains s)
    · rfl
    · have hcol := List.all_eq_true.mp hac col hmem
      rw [hmiss] at hcol
      exact absurd hcol (by simp)
  unfold preprocess
  rw [if_pos hne]
  unfold dropColumns
  rw [hall]
  rfl

theorem classifier_predict_ok_index {M : Type} {c : Classifier M} {df out : DataFrame}
    (h : c.predict df = .ok out) : out.index = df.index := by
  unfold Classifier.predict at h
  cases hpre : preprocess c.redundant_cols c.descriptors c.scaler df with
  | error e => rw [hpre] at h; exact Except.noConfusion h
  | ok x => rw [hpre] at h; cases h; rfl

theorem regressor_predict_ok_index {M : Type} {r : Regressor M} {df out : DataFrame}
    (h : r.predict df = .ok out) : out.index = df.index := by
  unfold Regressor.predict at h
  cases hpre : preprocess r.redundant_cols r.descriptors r.scaler df with
  | error e => rw [hpre] at h; exact Except.noConfusion h
  | ok x => rw [hpre] at h; cases h; rfl

/-- C7: `Regressor.predict` and `Classifier.predict` leave the caller's table
unchanged — the source copies the table before the in-place drop and the
`.loc` assignment, so the caller's frame passes through the call as-is — and
the returned table's index equals the input's index in the same order. -/
theorem C7_predict_no_mutation {M N : Type} (c : Classifier M) (r : Regressor N)
    (df outc outr : DataFrame)
    (hc : c.predict df = .ok outc) (hr : r.predict df = .ok outr) :
    c.predictEff df = (df, .ok outc) ∧ r.predictEff df = (df, .ok outr) ∧
      outc.index = df.index ∧ outr.index = df.index := by
  refine ⟨?_, ?_, classifier_predict_ok_index hc, regressor_predict_ok_index hr⟩
  · unfold Classifier.predictEff; rw [hc]
  · unfold Regressor.predictEff; rw [hr]

theorem C7_predict_no_mutation_witness :
    Classifier.predictEff
        { model := (), name := "m",
          probaFn := fun _ rows => rows.map (fun _ => [1, 0]),
          classesFn := fun _ => [3, 5], scaler := none,
          redundant_cols := [], descriptors := [] }
        { colNames := ["d1"], cols := [[1]], index := [0] } =
      ({ colNames := ["d1"], cols := [[1]], index := [0] },
        .ok { colNames := ["m_prediction", "m_probability",
                           "m_probability_0", "m_probability_1"],
              cols := [[3], [1], [1], [0]], index := [0] }) ∧
    Regressor.predictEff
        { model := (), name := "m",
          predictFn := fun _ rows => rows.map (fun _ => (7 : ℚ)),
          scaler := none, redundant_cols := [], descriptors := [] }
        { colNames := ["d1"], cols := [[1]], index := [0] } =
      ({ colNames := ["d1"], cols := [[1]], index := [0] },
        .ok { colNames := ["m_prediction"], cols := [[7]], index := [0] }) ∧
    ({ colNames := ["m_prediction", "m_probability",
                    "m_probability_0", "m_probability_1"],
       cols := [[3], [1], [1], [0]], index := [0] } : DataFrame).index =
      ({ colNames := ["d1"], cols := [[1]], index := [0] } : DataFrame).index ∧
    ({ colNames := ["m_prediction"], cols := [[7]], index := [0] } : DataFrame).index =
      ({ colNames := ["d1"], cols := [[1]], index := [0] } : DataFrame).index :=
  C7_predict_no_mutation _ _ _ _ _ rfl rfl

/-- C8: when a wrapper (Classifier or Regressor) has a non-empty
redundant-column list and any named redundant column is absent from the input
table, `predict` fails with the column-not-found error and produces no
prediction table. -/
theorem C8_missing_redundant_column_fails {M N : Type} (c : Classifier M)
    (r : Regressor N) (df : DataFrame) (colc colr : String)
    (hc1 : c.redundant_cols ≠ []) (hc2 : colc ∈ c.redundant_cols)
    (hc3 : df.colNames.contains colc = false)
    (hr1 : r.redundant_cols ≠ []) (hr2 : colr ∈ r.redundant_cols)
    (hr3 : df.colNames.contains colr = false) :
    c.predict df = .error .columnNotFound ∧ r.predict df = .error .columnNotFound := by
  constructor
  · unfold Classifier.predict
    rw [preprocess_missing_redundant c.redundant_cols c.descriptors c.scaler df colc hc1 hc2 hc3]
  · unfold Regressor.predict
    rw [preprocess_missing_redundant r.redundant_cols r.descriptors r.scaler df colr hr1 hr2 hr3]

theorem C8_missing_redundant_column_fails_witness :
    Classifier.predict
        { model := (), name := "m",
          probaFn := fun _ rows => rows.map (fun _ => [1, 0]),
          classesFn := fun _ => [3, 5], scaler := none,
          redundant_cols := ["fp_17"], descriptors := [] }
        { colNames := ["d1"], cols := [[1]], index := [0] } =
      .error .columnNotFound ∧
    Regressor.predict
        { model := (), name := "m",
          predictFn := fun _ rows => rows.map (fun _ => (7 : ℚ)),
          scaler := none, redundant_cols := ["fp_17"], descriptors := [] }
        { colNames := ["d1"], cols := [[1]], index := [0] } =
      .error .columnNotFound :=
  C8_missing_redundant_column_fails _ _ _ "fp_17" "fp_17"
    (by decide) (by decide) (by decide) (by decide) (by decide) (by decide)

/-- C9: a second `fit` call appends the newly trained models instead of
replacing the owned list: starting from a freshly constructed ensemble, after
two identical `fit` calls a `CVClassifier` with fold count `k` owns `2 * k`
models and a `NestedClusterCVClassifier` owns twice its per-fit batch, with
the first call's models still present and first in order. -/
theorem C9_double_fit_appends {M N : Type} (cv : CVClassifier M)
    (kf : List (List ℕ × List ℕ)) (x : List (List ℚ)) (y : List ℚ)
    (nc : NestedClusterCVClassifier N) (x2 : List (List ℚ)) (y2 : List ℚ)
    (hcv : cv.models = []) (hk : kf.length = cv.n_folds) (hnc : nc.models = []) :
    (((cv.fit kf x y).fit kf x y).models =
        (cv.fit kf x y).models ++ (cv.fit kf x y).models ∧
      ((cv.fit kf x y).fit kf x y).models.length = 2 * cv.n_folds ∧
      ((cv.fit kf x y).fit kf x y).models.take cv.n_folds = (cv.fit kf x y).models) ∧
    (((nc.fit x2 y2).fit x2 y2).models =
        (nc.fit x2 y2).models ++ (nc.fit x2 y2).models ∧
      ((nc.fit x2 y2).fit x2 y2).models.length = 2 * (nc.fit x2 y2).models.length ∧
      ((nc.fit x2 y2).fit x2 y2).models.take (nc.fit x2 y2).models.length =
        (nc.fit x2 y2).models) := by
  have hcv1 : (cv.fit kf x y).models =
      kf.map (fun p => cv.clfFit (npTake x p.1 []) (npTake y p.1 0)) := by
    unfold CVClassifier.fit
    rw [hcv]
    rfl
  have hcv2 : ((cv.fit kf x y).fit kf x y).models =
      (cv.fit kf x y).models ++
        kf.map (fun p => cv.clfFit (npTake x p.1 []) (npTake y p.1 0)) := rfl
  have hlen : (cv.fit kf x y).models.length = cv.n_folds := by
    rw [hcv1, List.length_map, hk]
  have hnc1 : (nc.fit x2 y2).models = nestedFitBatch nc x2 y2 := by
    unfold NestedClusterCVClassifier.fit
    rw [hnc]
    rfl
  have hnc2 : ((nc.fit x2 y2).fit x2 y2).models =
      (nc.fit x2 y2).models ++ nestedFitBatch nc x2 y2 := rfl
  constructor
  · refine ⟨by rw [hcv2, hcv1], ?_, ?_⟩
    · rw [hcv2, List.length_append, hcv1, List.length_map, hk]
      ring
    · rw [hcv2, ← hlen, ← hcv1, List.take_left]
  · refine ⟨by rw [hnc2, hnc1], ?_, ?_⟩
    · rw [hnc2, List.length_append, hnc1]
      ring
    · rw [hnc2, ← hnc1, List.take_left]

theorem C9_double_fit_appends_witness :
    ((((CVClassifier.init (fun a b => (a, b)) (fun _ _ => [[1]]) 2 true).fit
          [([2, 3], [0, 1]), ([0, 1], [2, 3])] [[1], [2], [3], [4]] [0, 1, 0, 1]).fit
          [([2, 3], [0, 1]), ([0, 1], [2, 3])] [[1], [2], [3], [4]] [0, 1, 0, 1]).models =
        ((CVClassifier.init (fun a b => (a, b)) (fun _ _ => [[1]]) 2 true).fit
          [([2, 3], [0, 1]), ([0, 1], [2, 3])] [[1], [2], [3], [4]] [0, 1, 0, 1]).models ++
        ((CVClassifier.init (fun a b => (a, b)) (fun _ _ => [[1]]) 2 true).fit
          [([2, 3], [0, 1]), ([0, 1], [2, 3])] [[1], [2], [3], [4]] [0, 1, 0, 1]).models ∧
      ((((CVClassifier.init (fun a b => (a, b)) (fun _ _ => [[1]]) 2 true).fit
          [([2, 3], [0, 1]), ([0, 1], [2, 3])] [[1], [2], [3], [4]] [0, 1, 0, 1]).fit
          [([2, 3], [0, 1]), ([0, 1], [2, 3])] [[1], [2], [3], [4]] [0, 1, 0, 1]).models.length =
        2 * (CVClassifier.init (fun a b => (a, b)) (fun _ _ => [[1]]) 2 true).n_folds) ∧
      ((((CVClassifier.init (fun a b => (a, b)) (fun _ _ => [[1]]) 2 true).fit
          [([2, 3], [0, 1]), ([0, 1], [2, 3])] [[1], [2], [3], [4]] [0, 1, 0, 1]).fit
          [([2, 3], [0, 1]), ([0, 1], [2, 3])] [[1], [2], [3], [4]] [0, 1, 0, 1]).models.take
          (CVClassifier.init (fun a b => (a, b)) (fun _ _ => [[1]]) 2 true).n_folds =
        ((CVClassifier.init (fun a b => (a, b)) (fun _ _ => [[1]]) 2 true).fit
          [([2, 3], [0, 1]), ([0, 1], [2, 3])] [[1], [2], [3], [4]] [0, 1, 0, 1]).models)) ∧
    ((((NestedClusterCVClassifier.init (fun a b => (a, b)) (fun _ _ => [[1]]) [0, 1] true).fit
          [[1], [2]] [0, 1]).fit [[1], [2]] [0, 1]).models =
        ((NestedClusterCVClassifier.init (fun a b => (a, b)) (fun _ _ => [[1]]) [0, 1] true).fit
          [[1], [2]] [0, 1]).models ++
        ((NestedClusterCVClassifier.init (fun a b => (a, b)) (fun _ _ => [[1]]) [0, 1] true).fit
          [[1], [2]] [0, 1]).models ∧
      ((((NestedClusterCVClassifier.init (fun a b => (a, b)) (fun _ _ => [[1]]) [0, 1] true).fit
          [[1], [2]] [0, 1]).fit [[1], [2]] [0, 1]).models.length =
        2 * ((NestedClusterCVClassifier.init (fun a b => (a, b)) (fun _ _ => [[1]]) [0, 1] true).fit
          [[1], [2]] [0, 1]).models.length) ∧
      ((((NestedClusterCVClassifier.init (fun a b => (a, b)) (fun _ _ => [[1]]) [0, 1] true).fit
          [[1], [2]] [0, 1]).fit [[1], [2]] [0, 1]).models.take
          ((NestedClusterCVClassifier.init (fun a b => (a, b)) (fun _ _ => [[1]]) [0, 1] true).fit
            [[1], [2]] [0, 1]).models.length =
        ((NestedClusterCVClassifier.init (fun a b => (a, b)) (fun _ _ => [[1]]) [0, 1] true).fit
          [[1], [2]] [0, 1]).models)) :=
  C9_double_fit_appends _ _ _ _ _ _ _ rfl rfl rfl

/-- C10: calling `predict_proba` on an ensemble whose `fit` was never called
does not raise: with no owned models `np.sum([], axis=0)` collapses to the 0-d
scalar `0.0`, so both `CVClassifier.predict_proba` and
`NestedClusterCVClassifier.predict_proba` return the scalar `0 / n_folds = 0`
rather than a per-sample per-class probability matrix. -/
theorem C10_unfitted_predict_proba_scalar {M N : Type} (c : CVClassifier M)
    (nc : NestedClusterCVClassifier N) (x : List (List ℚ))
    (hc : c.models = []) (hn : nc.models = []) :
    c.predict_proba x = .scalar 0 ∧ nc.predict_proba x = .scalar 0 ∧
      (c.predict_proba x).isMat = false ∧ (nc.predict_proba x).isMat = false := by
  have h1 : c.predict_proba x = NpArr.scalar ((0 : ℚ) / (c.n_folds : ℚ)) := by
    unfold CVClassifier.predict_proba CVClassifier.mean_proba
    rw [hc]
    rfl
  have h2 : nc.predict_proba x = NpArr.scalar ((0 : ℚ) / (nc.n_folds : ℚ)) := by
    unfold NestedClusterCVClassifier.predict_proba NestedClusterCVClassifier.mean_proba
    rw [hn]
    rfl
  rw [zero_div] at h1 h2
  exact ⟨h1, h2, by rw [h1]; rfl, by rw [h2]; rfl⟩

theorem C10_unfitted_predict_proba_scalar_witness :
    (CVClassifier.init (fun _ _ => ()) (fun _ _ => [[1]]) 5 true).predict_proba [[1]] =
      .scalar 0 ∧
    (NestedClusterCVClassifier.init (fun _ _ => ()) (fun _ _ => [[1]]) [0, 1] true).predict_proba
      [[1]] = .scalar 0 ∧
    ((CVClassifier.init (fun _ _ => ()) (fun _ _ => [[1]]) 5 true).predict_proba [[1]]).isMat =
      false ∧
    ((NestedClusterCVClassifier.init (fun _ _ => ()) (fun _ _ => [[1]]) [0, 1] true).predict_proba
      [[1]]).isMat = false :=
  C10_unfitted_predict_proba_scalar _ _ _ rfl rfl

theorem zip_range_eq_map {α : Type} :
    ∀ (l : List α) (d : α),
      (List.range l.length).zip l = (List.range l.length).map (fun i => (i, l.getD i d)) := by
  intro l
  induction l with
  | nil => intro d; rfl
  | cons a t ih =>
    intro d
    rw [List.length_cons, List.range_succ_eq_map, List.zip_cons_cons, List.map_cons,
      List.zip_map_left, ih d, List.map_map, List.map_map]
    rfl

theorem npTake_filter_range {α : Type} (l : List α) (p : ℕ → Bool) (d : α) :
    npTake l ((List.range l.length).filter p) d =
      (l.enum.filter (fun q => p q.1)).map Prod.snd := by
  rw [npTake, List.enum_eq_zip_range, zip_range_eq_map l d, List.filter_map, List.map_map]
  rfl

/-- C3: given the splitter's output for fold count `k` (the external
`StratifiedKFold`, characterised by `ValidKFold`: `k` pairs whose train list
is the complement of the test list), `CVClassifier.fit` appends exactly `k`
models in fold order, each built fresh by `clfFit` (the configured
constructor plus parameters) on `x_data[train_index]`, and each training
selection consists precisely of the samples whose position is NOT in that
fold's test list. -/
theorem C3_cv_fit_trains_k_models {M : Type} (c : CVClassifier M)
    (kf : List (List ℕ × List ℕ)) (x : List (List ℚ)) (y : List ℚ)
    (h : ValidKFold x.length c.n_folds kf) :
    (c.fit kf x y).models =
      c.models ++ kf.map (fun p => c.clfFit (npTake x p.1 []) (npTake y p.1 0)) ∧
    (c.fit kf x y).models.length = c.models.length + c.n_folds ∧
    ∀ p ∈ kf, npTake x p.1 [] =
      (x.enum.filter (fun q => !(p.2.contains q.1))).map Prod.snd := by
  refine ⟨rfl, ?_, ?_⟩
  · show (c.models ++ kf.map _).length = c.models.length + c.n_folds
    rw [List.length_append, List.length_map, h.1]
  · intro p hp
    rw [h.2 p hp, npTake_filter_range]

theorem C3_cv_fit_trains_k_models_witness :
    ((CVClassifier.init (fun a b => (a, b)) (fun _ _ => [[1]]) 2 true).fit
        [([2, 3], [0, 1]), ([0, 1], [2, 3])] [[1], [2], [3], [4]] [0, 1, 0, 1]).models =
      (CVClassifier.init (fun a b => (a, b)) (fun _ _ => [[1]]) 2 true).models ++
        [([2, 3], [0, 1]), ([0, 1], [2, 3])].map
          (fun p => (CVClassifier.init
              (fun (a : List (List ℚ)) (b : List ℚ) => (a, b)) (fun _ _ => [[1]]) 2 true).clfFit
            (npTake [[1], [2], [3], [4]] p.1 []) (npTake [0, 1, 0, 1] p.1 0)) ∧
    ((CVClassifier.init (fun a b => (a, b)) (fun _ _ => [[1]]) 2 true).fit
        [([2, 3], [0, 1]), ([0, 1], [2, 3])] [[1], [2], [3], [4]] [0, 1, 0, 1]).models.length =
      (CVClassifier.init (fun a b => (a, b)) (fun _ _ => [[1]]) 2 true).models.length +
        (CVClassifier.init (fun a b => (a, b)) (fun _ _ => [[1]]) 2 true).n_folds ∧
    ∀ p ∈ [([2, 3], [0, 1]), ([0, 1], [2, 3])],
      npTake [[(1 : ℚ)], [2], [3], [4]] p.1 [] =
        (([[(1 : ℚ)], [2], [3], [4]] : List (List ℚ)).enum.filter
          (fun q => !(p.2.contains q.1))).map Prod.snd :=
  C3_cv_fit_trains_k_models _ _ _ _ (by unfold ValidKFold; exact ⟨rfl, by decide⟩)

/-- C4: on a `CVClassifier` fitted once (so the owned model count equals the
fold count `k`), when every owned model's `predict_proba` output is an
`r × cc` matrix, `predict_proba` returns the element-wise sum of the `k`
probability matrices divided by `k` — the element-wise mean. -/
theorem C4_cv_predict_proba_mean {M : Type} (c : CVClassifier M) (x : List (List ℚ))
    (r cc k : ℕ) (hk : c.models.length = k) (hnf : c.n_folds = k) (hpos : 0 < k)
    (hall : ∀ m ∈ c.models, IsMat r cc (c.probaFn m x)) :
    ∃ P, c.predict_proba x = .mat P ∧ IsMat r cc P ∧
      ∀ i j, i < r → j < cc →
        matEntry P i j =
          (c.models.map (fun m => matEntry (c.probaFn m x) i j)).sum /
            ((c.models.length : ℚ)) := by
  have hLne : c.models.map (fun m => c.probaFn m x) ≠ [] := by
    intro hnil
    have := congrArg List.length hnil
    rw [List.length_map, hk] at this
    simp at this
    omega
  have hallL : ∀ m ∈ c.models.map (fun m => c.probaFn m x), IsMat r cc m := by
    intro m hm
    obtain ⟨mm, hmm, rfl⟩ := List.mem_map.mp hm
    exact hall mm hmm
  obtain ⟨S, hS, hSmat, hSentry⟩ := npSum_spec _ hLne hallL
  refine ⟨S.map (fun row => row.map (fun q => q / (c.n_folds : ℚ))), ?_,
    npDivide_mat_isMat _ hSmat, ?_⟩
  · unfold CVClassifier.predict_proba CVClassifier.mean_proba
    rw [hS]
    rfl
  · intro i j hi hj
    rw [npDivide_mat_entry _ i j hSmat hi hj, hSentry i j hi hj, List.map_map,
      hnf, ← hk]
    rfl

theorem C4_cv_predict_proba_mean_witness :
    ∃ P, CVClassifier.predict_proba
        { clfFit := fun _ _ => (), probaFn := fun _ _ => [[1, 0]],
          models := [(), ()], n_folds := 2, shuffle := true, classes_ := [] } [[5]] =
      .mat P ∧ IsMat 1 2 P ∧
      ∀ i j, i < 1 → j < 2 →
        matEntry P i j =
          (([(), ()] : List Unit).map (fun _ => matEntry [[1, 0]] i j)).sum /
            ((([(), ()] : List Unit).length : ℚ)) :=
  C4_cv_predict_proba_mean _ _ 1 2 2 rfl rfl (by decide)
    (by
      intro m hm
      refine ⟨rfl, ?_⟩
      intro i hi
      have h0 : i = 0 := by omega
      subst h0
      rfl)

/-- C2: `NestedClusterCVClassifier.predict_proba` is the element-wise sum of
`predict_proba` over ALL owned models divided by `n_folds` — the number of
distinct cluster identifiers set by the constructor — not by the total number
of owned models; `predict` selects per row the entry of `classes_` at the
first index of that row's maximum of this quantity. -/
theorem C2_nested_predict_proba_divisor {M : Type} (c : NestedClusterCVClassifier M)
    (x : List (List ℚ)) (r cc : ℕ)
    (hnf : c.n_folds = (npUnique c.outer_clusters).length)
    (hne : c.models ≠ [])
    (hall : ∀ m ∈ c.models, IsMat r cc (c.probaFn m x)) :
    ∃ P, c.predict_proba x = .mat P ∧ IsMat r cc P ∧
      (∀ i j, i < r → j < cc →
        matEntry P i j =
          (c.models.map (fun m => matEntry (c.probaFn m x) i j)).sum /
            (((npUnique c.outer_clusters).length : ℚ))) ∧
      c.predict x = some (P.map (fun row => c.classes_.getD (npArgmax row) 0)) ∧
      ∀ row ∈ P, row.getD (npArgmax row) 0 = listMax row := by
  have hLne : c.models.map (fun m => c.probaFn m x) ≠ [] := by
    intro hnil
    exact hne (List.map_eq_nil_iff.mp hnil)
  have hallL : ∀ m ∈ c.models.map (fun m => c.probaFn m x), IsMat r cc m := by
    intro m hm
    obtain ⟨mm, hmm, rfl⟩ := List.mem_map.mp hm
    exact hall mm hmm
  obtain ⟨S, hS, hSmat, hSentry⟩ := npSum_spec _ hLne hallL
  have hmp : c.mean_proba x =
      .mat (S.map (fun row => row.map (fun q => q / (c.n_folds : ℚ)))) := by
    unfold NestedClusterCVClassifier.mean_proba
    rw [hS]
    rfl
  refine ⟨S.map (fun row => row.map (fun q => q / (c.n_folds : ℚ))), ?_,
    npDivide_mat_isMat _ hSmat, ?_, ?_, fun row _ => npArgmax_getD row⟩
  · unfold NestedClusterCVClassifier.predict_proba
    exact hmp
  · intro i j hi hj
    rw [npDivide_mat_entry _ i j hSmat hi hj, hSentry i j hi hj, List.map_map, hnf]
    rfl
  · unfold NestedClusterCVClassifier.predict
    rw [hmp]

theorem C2_nested_predict_proba_divisor_witness :
    ∃ P, NestedClusterCVClassifier.predict_proba
        { clfFit := fun _ _ => (), probaFn := fun _ _ => [[1, 0]],
          models := [(), ()], outer_clusters := [0, 1],
          n_folds := (npUnique [0, 1]).length, shuffle := true, classes_ := [3, 5] }
        [[5]] = .mat P ∧
      IsMat 1 2 P ∧
      (∀ i j, i < 1 → j < 2 →
        matEntry P i j =
          (([(), ()] : List Unit).map (fun _ => matEntry [[1, 0]] i j)).sum /
            (((npUnique [0, 1]).length : ℚ))) ∧
      NestedClusterCVClassifier.predict
        { clfFit := fun _ _ => (), probaFn := fun _ _ => [[1, 0]],
          models := [(), ()], outer_clusters := [0, 1],
          n_folds := (npUnique [0, 1]).length, shuffle := true, classes_ := [3, 5] }
        [[5]] = some (P.map (fun row => ([3, 5] : List ℚ).getD (npArgmax row) 0)) ∧
      ∀ row ∈ P, row.getD (npArgmax row) 0 = listMax row :=
  C2_nested_predict_proba_divisor _ _ 1 2 rfl (by decide)
    (by
      intro m hm
      refine ⟨rfl, ?_⟩
      intro i hi
      have h0 : i = 0 := by omega
      subst h0
      rfl)

/-- C5: for every input table on which `Classifier.predict` succeeds, with a
wrapped model returning one probability row per input row, the output table
has exactly `1 + 1 + n_classes` columns named `name ++ "_prediction"`,
`name ++ "_probability"` and `name ++ "_probability_" ++ i` for each class
index `i`, and carries exactly the input's rows: its index is the input's
index in the same order and every column has one entry per input row. -/
theorem C5_classifier_predict_table {M : Type} (c : Classifier M) (df out : DataFrame)
    (hok : c.predict df = .ok out)
    (hp : ∀ rows, (c.probaFn c.model rows).length = rows.length) :
    out.colNames = (c.name ++ "_prediction") :: (c.name ++ "_probability") ::
        (List.range (c.classesFn c.model).length).map
          (fun i => c.name ++ "_probability_" ++ toString i) ∧
    out.colNames.length = 1 + 1 + (c.classesFn c.model).length ∧
    out.index = df.index ∧
    out.cols.length = out.colNames.length ∧
    ∀ colv ∈ out.cols, colv.length = df.index.length := by
  unfold Classifier.predict at hok
  cases hpre : preprocess c.redundant_cols c.descriptors c.scaler df with
  | error e => rw [hpre] at hok; exact Except.noConfusion hok
  | ok x =>
    rw [hpre] at hok
    have hxi : x.index = df.index := preprocess_ok_index hpre
    have hylen : (c.probaFn c.model x.toRows).length = df.index.length := by
      rw [hp x.toRows]
      unfold DataFrame.toRows
      rw [List.length_map, List.length_range, hxi]
    cases hok
    refine ⟨rfl, ?_, rfl, ?_, ?_⟩
    · simp only [List.nil_append, List.length_cons, List.length_append,
        List.length_nil, List.length_map, List.length_range]
    · simp only [List.nil_append, List.length_cons, List.length_append,
        List.length_nil, List.length_map, List.length_range]
    · intro colv hcv
      rcases List.mem_cons.mp hcv with rfl | hcv
      · rw [List.length_map, hylen]
      · rcases List.mem_cons.mp hcv with rfl | hcv
        · rw [List.length_map, hylen]
        · obtain ⟨j, hj, rfl⟩ := List.mem_map.mp hcv
          rw [List.length_map, hylen]

theorem C5_classifier_predict_table_witness :
    ({ colNames := ["m_prediction", "m_probability",
                    "m_probability_0", "m_probability_1"],
       cols := [[3], [1], [1], [0]], index := [0] } : DataFrame).colNames =
      ("m" ++ "_prediction") :: ("m" ++ "_probability") ::
        (List.range ([3, 5] : List ℚ).length).map
          (fun i => "m" ++ "_probability_" ++ toString i) ∧
    ({ colNames := ["m_prediction", "m_probability",
                    "m_probability_0", "m_probability_1"],
       cols := [[3], [1], [1], [0]], index := [0] } : DataFrame).colNames.length =
      1 + 1 + ([3, 5] : List ℚ).length ∧
    ({ colNames := ["m_prediction", "m_probability",
                    "m_probability_0", "m_probability_1"],
       cols := [[3], [1], [1], [0]], index := [0] } : DataFrame).index =
      ({ colNames := ["d1"], cols := [[2]], index := [0] } : DataFrame).index ∧
    ({ colNames := ["m_prediction", "m_probability",
                    "m_probability_0", "m_probability_1"],
       cols := [[3], [1], [1], [0]], index := [0] } : DataFrame).cols.length =
      ({ colNames := ["m_prediction", "m_probability",
                      "m_probability_0", "m_probability_1"],
         cols := [[3], [1], [1], [0]], index := [0] } : DataFrame).colNames.length ∧
    ∀ colv ∈ ({ colNames := ["m_prediction", "m_probability",
                             "m_probability_0", "m_probability_1"],
                cols := [[3], [1], [1], [0]], index := [0] } : DataFrame).cols,
      colv.length =
        ({ colNames := ["d1"], cols := [[2]], index := [0] } : DataFrame).index.length :=
  C5_classifier_predict_table
    { model := (), name := "m",
      probaFn := fun _ rows => rows.map (fun _ => [1, 0]),
      classesFn := fun _ => [3, 5], scaler := none,
      redundant_cols := [], descriptors := [] }
    { colNames := ["d1"], cols := [[2]], index := [0] } _ rfl
    (by intro rows; rw [List.length_map])

/-- C6: for every probability row the wrapped model produces,
`Classifier.predict` fills the prediction column with the class at the FIRST
index attaining the row's maximum (the lowest index among all indices
attaining it, so an earlier class wins a tie) and the confidence column with
that maximum probability. -/
theorem C6_classifier_first_max_tie {M : Type} (c : Classifier M) (df out x : DataFrame)
    (hpre : preprocess c.redundant_cols c.descriptors c.scaler df = .ok x)
    (hok : c.predict df = .ok out) :
    out.cols.getD 0 [] = (c.probaFn c.model x.toRows).map
        (fun values => (c.classesFn c.model).getD (npArgmax values) 0) ∧
    out.cols.getD 1 [] = (c.probaFn c.model x.toRows).map
        (fun values => values.getD (npArgmax values) 0) ∧
    ∀ values ∈ c.probaFn c.model x.toRows,
      values.getD (npArgmax values) 0 = listMax values ∧
      (values ≠ [] → npArgmax values < values.length) ∧
      (∀ j, j < values.length → values.getD j 0 = listMax values → npArgmax values ≤ j) := by
  unfold Classifier.predict at hok
  rw [hpre] at hok
  cases hok
  exact ⟨rfl, rfl, fun values _ =>
    ⟨npArgmax_getD values, npArgmax_lt_length values,
      fun j hj hval => npArgmax_min values j hj hval⟩⟩

theorem C6_classifier_first_max_tie_witness :
    ({ colNames := ["m_prediction", "m_probability",
                    "m_probability_0", "m_probability_1"],
       cols := [[3], [1], [1], [1]], index := [0] } : DataFrame).cols.getD 0 [] =
      ([[1, 1]] : List (List ℚ)).map
        (fun values => ([3, 5] : List ℚ).getD (npArgmax values) 0) ∧
    ({ colNames := ["m_prediction", "m_probability",
                    "m_probability_0", "m_probability_1"],
       cols := [[3], [1], [1], [1]], index := [0] } : DataFrame).cols.getD 1 [] =
      ([[1, 1]] : List (List ℚ)).map
        (fun values => values.getD (npArgmax values) 0) ∧
    ∀ values ∈ ([[1, 1]] : List (List ℚ)),
      values.getD (npArgmax values) 0 = listMax values ∧
      (values ≠ [] → npArgmax values < values.length) ∧
      (∀ j, j < values.length → values.getD j 0 = listMax values → npArgmax values ≤ j) :=
  C6_classifier_first_max_tie
    { model := (), name := "m",
      probaFn := fun _ rows => rows.map (fun _ => [1, 1]),
      classesFn := fun _ => [3, 5], scaler := none,
      redundant_cols := [], descriptors := [] }
    { colNames := ["d1"], cols := [[2]], index := [0] } _ _ rfl rfl

/-- C1: evaluation of `NestedClusterCVClassifier.fit` at cluster identifiers
that are not `0..n_folds-1`.  With `outer_clusters = [10, 20]` the loop
`for fold in range(self.n_folds)` compares the identifiers 10 and 20 against
the counters 0 and 1, so no outer exclusion ever removes a sample: the code
trains `2 * 2 = 4` models, while one fresh model per distinct cluster of each
outer cluster's remainder — the claimed scheme, and the
`n_clusters * (n_clusters - 1)` of the method's own docstring — comes to 2. -/
theorem C1_nested_fit_ignores_cluster_ids :
    ((NestedClusterCVClassifier.init
        (fun (a : List (List ℚ)) (b : List ℚ) => (a, b))
        (fun _ _ => ([] : List (List ℚ))) [10, 20] true).fit
      [[1], [2]] [0, 1]).models.length = 4 ∧
    ((npUnique [10, 20]).map
      (fun cl => (npUnique (([10, 20] : List ℤ).filter (fun d => !(d == cl)))).length)).sum =
      2 := by
  constructor
  · rfl
  · rfl
